import Mathlib

/-!
Verification of the request-handling pipeline of the vapi-voice-agent proxy
(`server.py`, `conversation_store.py`, `rag.py`) against its specification.

The Python sources are shallowly embedded: the SQLite-backed message table
becomes a list of rows in primary-key (insertion) order with an explicit
AUTOINCREMENT counter, external services (Ollama embedding, Pinecone query,
the upstream SSE stream, `json.loads`) become explicit inputs, and Python
exceptions become `Except` values.
-/

namespace VapiProxy

/-! ### Conversation store (`conversation_store.py`) -/

/-- One row of the `messages` table:
`id INTEGER PRIMARY KEY AUTOINCREMENT, call_id TEXT, role TEXT, content TEXT`.
`created_at` is informational only and not modelled (the spec says ordering is
by `sequence`, i.e. `id`). -/
structure Row where
  id : Nat
  call_id : String
  role : String
  content : String
deriving DecidableEq, Repr

/-- A `{role, content}` pair as returned by `get_history`. -/
structure Msg where
  role : String
  content : String
deriving DecidableEq, Repr

/-- The store state: the `messages` table kept in primary-key order (SQLite
inserts rows with strictly increasing AUTOINCREMENT ids, so list order equals
id order; the lemma `rows_ids_increasing` below discharges this), plus the
AUTOINCREMENT counter.  Because the table uses the `AUTOINCREMENT` keyword,
ids are never reused even after a `DELETE`. -/
structure ConversationStore where
  rows : List Row
  nextId : Nat
deriving DecidableEq, Repr

/-- A freshly created database: empty table, first id will be 1. -/
def ConversationStore.empty : ConversationStore := ⟨[], 1⟩

/-- `add_message(call_id, role, content)`: executes
`INSERT INTO messages (call_id, role, content) VALUES (?, ?, ?)` under the
store-wide lock and commits.  The Python function body has no `return`
statement, so the call evaluates to `None`; we model the returned value as an
`Option Nat` (a sequence number, had one been returned) which is always
`none`. -/
def ConversationStore.add_message (s : ConversationStore)
    (call_id role content : String) : ConversationStore × Option Nat :=
  (⟨s.rows ++ [⟨s.nextId, call_id, role, content⟩], s.nextId + 1⟩, none)

/-- `get_history(call_id)`: `SELECT role, content FROM messages WHERE
call_id = ? ORDER BY id ASC`.  Since `rows` is maintained in id order
(see `rows_ids_increasing`), the WHERE + ORDER BY is a filter of the list. -/
def ConversationStore.get_history (s : ConversationStore)
    (call_id : String) : List Msg :=
  (s.rows.filter (fun r => r.call_id = call_id)).map
    (fun r => ⟨r.role, r.content⟩)

/-- `clear_call(call_id)`: `DELETE FROM messages WHERE call_id = ?` under the
lock.  AUTOINCREMENT keeps the id counter. -/
def ConversationStore.clear_call (s : ConversationStore)
    (call_id : String) : ConversationStore :=
  ⟨s.rows.filter (fun r => ¬ r.call_id = call_id), s.nextId⟩

/-- One `append` request as issued by the pipeline: the arguments of a single
`add_message` call. -/
structure AddOp where
  call_id : String
  role : String
  content : String
deriving DecidableEq, Repr

/-- Apply one append to the store (dropping the returned `None`). -/
def applyAdd (s : ConversationStore) (op : AddOp) : ConversationStore :=
  (s.add_message op.call_id op.role op.content).1

/-- Replay a sequence of `add_message` calls against a store.  Because every
mutating operation holds the store-wide `threading.Lock`, any concurrent
execution is equivalent to some interleaved sequence of atomic appends; a
trace is that interleaving. -/
def ConversationStore.replayFrom (s : ConversationStore)
    (ops : List AddOp) : ConversationStore :=
  ops.foldl applyAdd s

/-- Replay a trace of appends starting from the fresh database. -/
def ConversationStore.replay (ops : List AddOp) : ConversationStore :=
  ConversationStore.empty.replayFrom ops

/-- The `{role, content}` pairs that a trace appends to a given session, in
trace order. -/
def sessionMsgs (ops : List AddOp) (call_id : String) : List Msg :=
  (ops.filter (fun o => o.call_id = call_id)).map (fun o => ⟨o.role, o.content⟩)

/-! Supporting lemmas for the store. -/

/-- Every row id is below the AUTOINCREMENT counter, for any store reachable
from the fresh database by appends. -/
lemma replayFrom_ids_lt (ops : List AddOp) (s : ConversationStore)
    (h : ∀ r ∈ s.rows, r.id < s.nextId) :
    ∀ r ∈ (s.replayFrom ops).rows, r.id < (s.replayFrom ops).nextId := by
  induction ops generalizing s with
  | nil => simpa [ConversationStore.replayFrom]
  | cons op rest ih =>
    simp only [ConversationStore.replayFrom, List.foldl_cons]
    refine ih _ ?_
    intro r hr
    simp only [applyAdd, ConversationStore.add_message, List.mem_append,
      List.mem_singleton] at hr
    rcases hr with hr | hr
    · exact Nat.lt_succ_of_lt (h r hr)
    · subst hr; exact Nat.lt_succ_self _

/-- Row ids are strictly increasing along the list, for any store reachable
by appends: list order equals `ORDER BY id ASC` order, which justifies
reading `get_history` as a filter. -/
lemma rows_ids_increasing (ops : List AddOp) :
    ((ConversationStore.replay ops).rows.map Row.id).Chain' (· < ·) := by
  suffices h : ∀ s : ConversationStore,
      (∀ r ∈ s.rows, r.id < s.nextId) →
      (s.rows.map Row.id).Chain' (· < ·) →
      ((s.replayFrom ops).rows.map Row.id).Chain' (· < ·) by
    exact h ConversationStore.empty (by simp [ConversationStore.empty])
      (by simp [ConversationStore.empty])
  induction ops with
  | nil => intro s _ h2; simpa [ConversationStore.replayFrom]
  | cons op rest ih =>
    intro s h1 h2
    simp only [ConversationStore.replayFrom, List.foldl_cons]
    refine ih _ ?_ ?_
    · intro r hr
      simp only [applyAdd, ConversationStore.add_message, List.mem_append,
        List.mem_singleton] at hr
      rcases hr with hr | hr
      · exact Nat.lt_succ_of_lt (h1 r hr)
      · subst hr; exact Nat.lt_succ_self _
    · simp only [applyAdd, ConversationStore.add_message, List.map_append]
      refine List.Chain'.append h2 (by simp) ?_
      intro x hx y hy
      simp only [List.map, List.head?_cons] at hy
      simp only [List.getLast?_map] at hx
      rcases hlast : s.rows.getLast? with _ | r
      · simp [hlast] at hx
      · simp only [hlast, Option.map_some] at hx
        cases hx
        cases hy
        have hmem : r ∈ s.rows := by
          rcases List.mem_getLast?_eq_getLast (l := s.rows) (x := r) hlast with
            ⟨hne, heq⟩
          rw [heq]; exact List.getLast_mem hne
        exact h1 r hmem

/-- Appending a trace extends each session's history by exactly that trace's
own messages for the session, in trace order. -/
lemma get_history_replayFrom (ops : List AddOp) (s : ConversationStore)
    (call_id : String) :
    (s.replayFrom ops).get_history call_id =
      s.get_history call_id ++ sessionMsgs ops call_id := by
  induction ops generalizing s with
  | nil => simp [ConversationStore.replayFrom, sessionMsgs]
  | cons op rest ih =>
    simp only [ConversationStore.replayFrom, List.foldl_cons] at *
    rw [ih]
    by_cases h : op.call_id = call_id
    · simp [applyAdd, ConversationStore.add_message, ConversationStore.get_history,
        sessionMsgs, List.filter_append, h]
    · simp [applyAdd, ConversationStore.add_message, ConversationStore.get_history,
        sessionMsgs, List.filter_append, h]

/-! ### Session identification and prompt assembly (`server.py` helpers) -/

/-- A message object from the inbound JSON body.  A Python dict may lack the
`content` key (the code reads it with `msg.get("content", ...)`), hence
`Option String`. -/
structure InMsg where
  role : String
  content : Option String
deriving DecidableEq, Repr

/-- Python `a or b` specialised to optional strings: `None` and `""` are
falsy, anything else is returned as-is. -/
def pyOr (a b : Option String) : Option String :=
  if a.getD "" = "" then b else a

/-- `_extract_call_id(vapi_data)`:
`vapi_data.get("call", {}).get("id") or request.headers.get("x-vapi-call-id")
or request.headers.get("x-request-id") or "default_session"`.
A missing `call` object or missing `id` key both yield `None`, which we fold
into the `Option` arguments. -/
def _extract_call_id (bodyCallId xVapiCallId xRequestId : Option String) :
    String :=
  (pyOr (pyOr (pyOr bodyCallId xVapiCallId) xRequestId)
    (some "default_session")).getD ""

/-- Spec §4.2, stated as written: the session id is the first non-empty value
in the precedence list body call-id, dedicated call-id header, generic
request-id header, fixed fallback constant. -/
def specSessionId (bodyCallId xVapiCallId xRequestId : Option String) :
    String :=
  (([bodyCallId.getD "", xVapiCallId.getD "", xRequestId.getD "",
      "default_session"]).find? (fun s => !(s == ""))).getD ""

/-- `_get_latest_user_message(messages)`: scan `reversed(messages)` and return
the first `user`-role message's content (`msg.get("content", "")`), or `""`
if there is none. -/
def _get_latest_user_message (messages : List InMsg) : String :=
  match messages.reverse.find? (fun m => m.role == "user") with
  | some m => m.content.getD ""
  | none => ""

/-- The fixed default persona used when the inbound list carries no system
message. -/
def defaultPersona : String :=
  "You are a compassionate and knowledgeable wellness assistant for Sama Wellness. You speak warmly and provide helpful guidance."

/-- `_build_messages(call_id, rag_context, incoming_messages)`: pick the first
inbound `system`-role message's content (falling back to the default persona,
also when that message lacks a `content` key), append the RAG block if
non-empty, and prepend the result to the full stored history. -/
def _build_messages (store : ConversationStore)
    (call_id rag_context : String) (incoming_messages : List InMsg) :
    List Msg :=
  let base :=
    match incoming_messages.find? (fun m => m.role == "system") with
    | some m => m.content.getD defaultPersona
    | none => defaultPersona
  let system_content :=
    if ¬ rag_context = "" then base ++ rag_context else base
  ⟨"system", system_content⟩ :: store.get_history call_id

/-! ### Retrieval adapter (`rag.py`) and the RAG step of `chat_completions` -/

/-- One Pinecone match: a relevance `score` (a float in the source; only
compared against the threshold, so modelled as `ℚ`) and the optional
`metadata.text` field — `none` models a missing `metadata` object or a
missing `text` key, both of which the code defaults to `""`. -/
structure PineMatch where
  score : ℚ
  text : Option String
deriving DecidableEq

/-- `match.get("metadata", {}).get("text", "")`. -/
def matchText (m : PineMatch) : String := m.text.getD ""

/-- The retrieval backends as seen by `search_context`: whether a Pinecone
index is configured (`_get_pinecone_index()` non-`None`), the outcome of the
external `get_embedding` HTTP call, and the outcome of `index.query` given
`top_k` and the embedding.  Either external call may raise, modelled by
`Except`. -/
structure RagEnv where
  indexConfigured : Bool
  embedResult : Except String (List ℚ)
  queryResult : Nat → List ℚ → Except String (List PineMatch)

/-- The loop body of `search_context`: keep a match's text when
`match["score"] >= score_threshold` and the extracted text is non-empty. -/
def chunkOf (score_threshold : ℚ) (m : PineMatch) : Option String :=
  if score_threshold ≤ m.score then
    (if ¬ matchText m = "" then some (matchText m) else none)
  else none

/-- `search_context(query, top_k=3, score_threshold=0.5)`: returns `[]` when
no index is configured; otherwise embeds the query and queries the index —
either external call raising propagates the exception to the caller (there
is no `try` in `rag.py`) — then filters the returned matches by score and
non-empty text, preserving the backend's order. -/
def search_context (env : RagEnv) (top_k : Nat) (score_threshold : ℚ) :
    Except String (List String) :=
  if env.indexConfigured = false then .ok []
  else
    match env.embedResult with
    | .error e => .error e
    | .ok embedding =>
      match env.queryResult top_k embedding with
      | .error e => .error e
      | .ok results => .ok (results.filterMap (chunkOf score_threshold))

/-- The fixed header of the injected context block. -/
def ragHeader : String := "\n\n--- Relevant knowledge-base context ---\n"

/-- The fixed footer of the injected context block. -/
def ragFooter : String := "\n--- End of context ---\n"

/-- Step 4 of `chat_completions`, given the chunks: the delimited block
`header + "\n\n".join(chunks) + footer` when `chunks` is non-empty, else the
initial `""`. -/
def buildRagContext (chunks : List String) : String :=
  if ¬ chunks = [] then
    ragHeader ++ String.intercalate "\n\n" chunks ++ ragFooter
  else ""

/-- Step 4 of `chat_completions` in full: RAG runs only when the latest user
message is non-empty; a raising `search_context` is caught (`except
Exception`), logged, and the request continues with `rag_context = ""`. -/
def ragContextOf (user_message : String)
    (searchOutcome : Except String (List String)) : String :=
  if ¬ user_message = "" then
    match searchOutcome with
    | .ok chunks => buildRagContext chunks
    | .error _ => ""
  else ""

/-! ### The request pipeline (`chat_completions`, steps 1–5) -/

/-- The inbound request: the body's `call.id` field, the two headers, and the
`messages` list. -/
structure InboundRequest where
  bodyCallId : Option String
  xVapiCallId : Option String
  xRequestId : Option String
  messages : List InMsg

/-- Steps 1–5 of `chat_completions`: identify the call, persist the latest
user turn when non-empty, best-effort RAG (skipped entirely when there is no
user message), and assemble the outbound messages array.  Returns the updated
store and the `messages` field of the Ollama payload. -/
def chat_completions (store : ConversationStore) (req : InboundRequest)
    (env : RagEnv) : ConversationStore × List Msg :=
  let call_id := _extract_call_id req.bodyCallId req.xVapiCallId req.xRequestId
  let user_message := _get_latest_user_message req.messages
  let store1 :=
    if ¬ user_message = "" then
      (store.add_message call_id "user" user_message).1
    else store
  let rag_context := ragContextOf user_message (search_context env 3 (1/2))
  (store1, _build_messages store1 call_id rag_context req.messages)

/-! ### Streaming relay (the `generate` generator inside `chat_completions`) -/

/-- A JSON value as produced by `json.loads`. -/
inductive Json where
  | null
  | str (s : String)
  | num (q : ℚ)
  | bool (b : Bool)
  | arr (items : List Json)
  | obj (fields : List (String × Json))

/-- Python truthiness of a `json.loads` value (`if token:`). -/
def Json.truthy : Json → Bool
  | .null => false
  | .str s => !(s == "")
  | .num q => !(q == 0)
  | .bool b => b
  | .arr items => !items.isEmpty
  | .obj fields => !fields.isEmpty

/-- Python exceptions the relay's
`except (json.JSONDecodeError, IndexError, KeyError)` clause does NOT catch. -/
inductive PyExc where
  | attributeError
  | typeError
deriving DecidableEq, Repr

/-- Python `x.get(key, default)`: defined on dicts only; on any other value
the attribute lookup raises `AttributeError` (uncaught by the relay).
`json.loads` collapses duplicate keys, so `find?` on the field list is the
dict lookup. -/
def jsonGet (j : Json) (key : String) (dflt : Json) : Except PyExc Json :=
  match j with
  | .obj fields =>
    match fields.find? (fun kv => kv.1 == key) with
    | some kv => .ok kv.2
    | none => .ok dflt
  | _ => .error .attributeError

/-- Outcome of Python `x[0]` on a `json.loads` value. -/
inductive Index0Result where
  | ok (j : Json)
  | caught
  | uncaught (e : PyExc)

/-- Python `x[0]`: list indexing (`IndexError` on empty — caught), dict
subscripting with the int key `0` (`KeyError` — caught, JSON object keys are
strings), string indexing (a one-character string; `IndexError` on empty),
`TypeError` (uncaught) on the remaining scalars. -/
def jsonIndex0 : Json → Index0Result
  | .arr items =>
    match items with
    | [] => .caught
    | x :: _ => .ok x
  | .obj _ => .caught
  | .str s => if s = "" then .caught else .ok (.str (s.take 1))
  | _ => .uncaught .typeError

/-- The accumulation body of the relay loop once `json.loads` succeeded:
`delta = data.get("choices", [{}])[0].get("delta", {})`,
`token = delta.get("content", "")`, `if token: full_response.append(token)`.
`.ok none` means nothing appended (including via a caught `IndexError` or
`KeyError`); `.error` is an uncaught exception escaping the `for` loop. -/
def extractFromJson (data : Json) : Except PyExc (Option Json) :=
  match jsonGet data "choices" (Json.arr [Json.obj []]) with
  | .error e => .error e
  | .ok choices =>
    match jsonIndex0 choices with
    | .uncaught e => .error e
    | .caught => .ok none
    | .ok c0 =>
      match jsonGet c0 "delta" (Json.obj []) with
      | .error e => .error e
      | .ok delta =>
        match jsonGet delta "content" (Json.str "") with
        | .error e => .error e
        | .ok token => .ok (if token.truthy then some token else none)

/-- One decoded line from `ollama_response.iter_lines(decode_unicode=True)`:
its text (no trailing newline) paired with what `json.loads` returns on
`line[6:]` — `none` models a `json.JSONDecodeError` (caught).  The pair is
the external HTTP stream plus JSON library, treated as input. -/
structure SSELine where
  text : String
  json : Option Json

/-- Python `line.startswith(p)`, at the character level: the first
`len(p)` characters of `line` are `p`. -/
def pyStartsWith (t p : String) : Bool :=
  t.data.take p.data.length == p.data

/-- Python `line.strip()`: drop leading and trailing whitespace (the SSE
lines at stake are ASCII, where Python and Lean whitespace agree). -/
def pyStrip (t : String) : String :=
  ⟨((t.data.dropWhile Char.isWhitespace).reverse.dropWhile
    Char.isWhitespace).reverse⟩

/-- `line.startswith("data: ") and line.strip() != "data: [DONE]"`. -/
def parsedLine (t : String) : Bool :=
  pyStartsWith t "data: " && !(pyStrip t == "data: [DONE]")

/-- Accumulation outcome for one non-empty line. -/
def extractRaw (l : SSELine) : Except PyExc (Option Json) :=
  if parsedLine l.text then
    match l.json with
    | none => .ok none
    | some data => extractFromJson data
  else .ok none

/-- One iteration of the relay `for` loop, combining the current line with
the outcome `r` of the remaining iterations.  An empty line is skipped
entirely (`if line:`); every other line is yielded as `line + "\n\n"`
BEFORE being parsed, so a line whose parse raises an uncaught exception is
still relayed but ends the loop (discarding the remaining iterations). -/
def relayStep (l : SSELine) (r : List String × List Json × Bool) :
    List String × List Json × Bool :=
  if l.text = "" then r
  else
    match extractRaw l with
    | .error _ => ([l.text ++ "\n\n"], [], false)
    | .ok none => ((l.text ++ "\n\n") :: r.1, r.2.1, r.2.2)
    | .ok (some tok) => ((l.text ++ "\n\n") :: r.1, tok :: r.2.1, r.2.2)

/-- The relay `for` loop over the lines the generator actually consumed:
the frames yielded, the accumulated tokens (`full_response`) in arrival
order, and whether the loop finished without an uncaught exception. -/
def relayLoop (lines : List SSELine) : List String × List Json × Bool :=
  lines.foldr relayStep ([], [], true)

/-- The upstream lines the generator consumes on a given exit path: `none` —
the iterator ran to end-of-stream; `some k` — iteration stopped after `k`
lines (client disconnect delivering `GeneratorExit` at the suspended yield,
or an upstream read failure), so the trailing `yield "data: [DONE]"` is
skipped.  The `finally` block runs in every case. -/
def consumedLines (lines : List SSELine) : Option Nat → List SSELine
  | none => lines
  | some k => lines.take k

/-- `"".join(full_response)`: every element must be a `str`, otherwise
`join` raises `TypeError`. -/
def joinTokens : List Json → Except PyExc String
  | [] => .ok ""
  | .str s :: rest => (joinTokens rest).map (fun r => s ++ r)
  | _ :: _ => .error .typeError

/-- The `finally` block: materialise `assistant_text` and persist it as one
`assistant`-role message iff it is non-empty.  The result lists the
`add_message` calls the block makes. -/
def finalizeAcc (call_id : String) (acc : List Json) :
    Except PyExc (List AddOp) :=
  match joinTokens acc with
  | .error e => .error e
  | .ok assistant_text =>
    .ok (if ¬ assistant_text = "" then
      [⟨call_id, "assistant", assistant_text⟩] else [])

/-- A full run of the `generate` generator for one request: the frames
delivered to the caller (with the relay's own trailing terminator when the
stream was fully consumed and no uncaught exception occurred) and the
finalize step's persistence effect. -/
def generateRun (call_id : String) (lines : List SSELine)
    (exitAt : Option Nat) : List String × Except PyExc (List AddOp) :=
  let consumed := consumedLines lines exitAt
  let r := relayLoop consumed
  let frames :=
    match exitAt with
    | none => if r.2.2 then r.1 ++ ["data: [DONE]\n\n"] else r.1
    | some _ => r.1
  (frames, finalizeAcc call_id r.2.1)

/-- The content token carried by a well-formed content-bearing line: the
line parses as a data frame whose extracted `content` is a (necessarily
non-empty, by truthiness) string. -/
def contentToken (l : SSELine) : Option String :=
  match extractRaw l with
  | .ok (some (.str s)) => some s
  | _ => none

/-- A line is clean when parsing it raises no uncaught exception and any
token it contributes is a string (so `"".join` cannot fail on it). -/
def cleanLine (l : SSELine) : Bool :=
  match extractRaw l with
  | .error _ => false
  | .ok none => true
  | .ok (some (.str _)) => true
  | .ok (some _) => false

/-! Supporting lemmas for the relay. -/

lemma string_foldl_append (l : List String) (x y : String) :
    l.foldl (· ++ ·) (x ++ y) = x ++ l.foldl (· ++ ·) y := by
  induction l generalizing y with
  | nil => simp
  | cons a l ih => simp only [List.foldl_cons, String.append_assoc, ih]

lemma string_join_cons (a : String) (l : List String) :
    String.join (a :: l) = a ++ String.join l := by
  show (a :: l).foldl (· ++ ·) "" = a ++ l.foldl (· ++ ·) ""
  rw [List.foldl_cons]
  calc l.foldl (· ++ ·) ("" ++ a) = l.foldl (· ++ ·) (a ++ "") := by simp
    _ = a ++ l.foldl (· ++ ·) "" := string_foldl_append l a ""

/-- Unfolding one iteration of the relay loop. -/
lemma relayLoop_cons (l : SSELine) (rest : List SSELine) :
    relayLoop (l :: rest) = relayStep l (relayLoop rest) := by
  simp [relayLoop]

/-- On a clean line list, the loop finishes and the accumulator is exactly
the list of content tokens of the well-formed content-bearing lines, in
arrival order. -/
lemma relayLoop_clean (lines : List SSELine)
    (h : ∀ l ∈ lines, cleanLine l = true) :
    (relayLoop lines).2.1 = (lines.filterMap contentToken).map Json.str ∧
      (relayLoop lines).2.2 = true := by
  induction lines with
  | nil => simp [relayLoop]
  | cons l rest ih =>
    have hl : cleanLine l = true := h l (List.mem_cons_self _ _)
    have hrest := ih (fun x hx => h x (List.mem_cons_of_mem _ hx))
    rw [relayLoop_cons]
    by_cases ht : l.text = ""
    · have hpl : parsedLine l.text = false := by rw [ht]; decide
      have her : extractRaw l = .ok none := by
        unfold extractRaw
        rw [hpl]
        simp
      have hct : contentToken l = none := by
        unfold contentToken
        rw [her]
      simp [relayStep, ht, List.filterMap_cons, hct, hrest.1, hrest.2]
    · rcases her : extractRaw l with e | t
      · exfalso
        unfold cleanLine at hl
        rw [her] at hl
        simp at hl
      · rcases t with _ | tok
        · have hct : contentToken l = none := by
            unfold contentToken
            rw [her]
          simp [relayStep, ht, her, List.filterMap_cons, hct, hrest.1, hrest.2]
        · rcases tok with _ | s | q | b | items | fields
          · exfalso; unfold cleanLine at hl; rw [her] at hl; simp at hl
          · have hct : contentToken l = some s := by
              unfold contentToken
              rw [her]
            simp [relayStep, ht, her, List.filterMap_cons, hct, hrest.1, hrest.2]
          · exfalso; unfold cleanLine at hl; rw [her] at hl; simp at hl
          · exfalso; unfold cleanLine at hl; rw [her] at hl; simp at hl
          · exfalso; unfold cleanLine at hl; rw [her] at hl; simp at hl
          · exfalso; unfold cleanLine at hl; rw [her] at hl; simp at hl

lemma joinTokens_map_str (ss : List String) :
    joinTokens (ss.map Json.str) = .ok (String.join ss) := by
  induction ss with
  | nil => simp [joinTokens, String.join]
  | cons a l ih => simp [joinTokens, ih, string_join_cons, Except.map]

/-- On a stream with no uncaught exception, the relayed frames are exactly
the non-empty lines, each suffixed with the SSE frame separator. -/
lemma relayLoop_frames (lines : List SSELine)
    (h : (relayLoop lines).2.2 = true) :
    (relayLoop lines).1 =
      (lines.filter (fun l => !(l.text == ""))).map
        (fun l => l.text ++ "\n\n") := by
  induction lines with
  | nil => simp [relayLoop]
  | cons l rest ih =>
    rw [relayLoop_cons] at h ⊢
    by_cases ht : l.text = ""
    · simp only [relayStep, if_pos ht] at h ⊢
      rw [ih h]
      simp [ht]
    · simp only [relayStep, if_neg ht] at h ⊢
      rcases her : extractRaw l with e | t
      · rw [her] at h
        simp at h
      · rcases t with _ | tok
        · rw [her] at h
          have hrest : (relayLoop rest).2.2 = true := h
          show ((l.text ++ "\n\n") :: (relayLoop rest).1) =
            ((l :: rest).filter (fun l => !(l.text == ""))).map
              (fun l => l.text ++ "\n\n")
          rw [ih hrest]
          simp [ht]
        · rw [her] at h
          have hrest : (relayLoop rest).2.2 = true := h
          show ((l.text ++ "\n\n") :: (relayLoop rest).1) =
            ((l :: rest).filter (fun l => !(l.text == ""))).map
              (fun l => l.text ++ "\n\n")
          rw [ih hrest]
          simp [ht]

/-! ### Shared facts about replayed stores -/

/-- Replaying a trace of appends against the fresh database yields, for each
session, exactly that session's messages in trace order. -/
lemma replay_get_history (ops : List AddOp) (sid : String) :
    (ConversationStore.replay ops).get_history sid = sessionMsgs ops sid := by
  have h := get_history_replayFrom ops ConversationStore.empty sid
  simpa [ConversationStore.replay, ConversationStore.empty,
    ConversationStore.get_history] using h

/-- Replaying a concatenation of traces is replaying them in turn. -/
lemma replay_append (ops extra : List AddOp) :
    ConversationStore.replay (ops ++ extra) =
      (ConversationStore.replay ops).replayFrom extra := by
  simp [ConversationStore.replay, ConversationStore.replayFrom,
    List.foldl_append]

/-! ### Claim theorems -/

/-- **C2.** For a fixed session id and any sequence of `add_message` calls
(to that session and any others), `get_history` returns exactly the appended
`{role, content}` pairs of that session in call order; and any later block
of appends only extends the earlier history — no mutation, reordering, or
dropping. -/
theorem history_is_append_log (sid : String) (ops extra : List AddOp) :
    (ConversationStore.replay ops).get_history sid = sessionMsgs ops sid ∧
      (ConversationStore.replay (ops ++ extra)).get_history sid =
        (ConversationStore.replay ops).get_history sid ++
          sessionMsgs extra sid := by
  refine ⟨replay_get_history ops sid, ?_⟩
  rw [replay_append, get_history_replayFrom]

/-- **C5 counterexample.** On the very first insert the store assigns
sequence number 1 to the row, yet `add_message` returns `None` — not the
assigned sequence number. -/
theorem add_message_returns_none_cex :
    (ConversationStore.empty.add_message "s1" "user" "hi").2 = none ∧
      ((ConversationStore.empty.add_message "s1" "user" "hi").1.rows.map
        Row.id) = [1] :=
  ⟨rfl, rfl⟩

/-- **C5 amended.** `add_message` inserts the new message at the tail of the
session's log with the next sequence number, but returns no value (`None`);
the sequence number is only recorded on the inserted row. -/
theorem add_message_appends_tail (s : ConversationStore)
    (call_id role content : String) :
    (s.add_message call_id role content).1.rows =
        s.rows ++ [⟨s.nextId, call_id, role, content⟩] ∧
      (s.add_message call_id role content).1.nextId = s.nextId + 1 ∧
      (s.add_message call_id role content).2 = none :=
  ⟨rfl, rfl, rfl⟩

/-- Closed form of the `or`-chain in `_extract_call_id`. -/
lemma extract_call_id_closed (b v r : Option String) :
    _extract_call_id b v r =
      if b.getD "" = "" then
        (if v.getD "" = "" then
          (if r.getD "" = "" then "default_session" else r.getD "")
        else v.getD "")
      else b.getD "" := by
  unfold _extract_call_id
  by_cases hb : b.getD "" = ""
  · by_cases hv : v.getD "" = ""
    · by_cases hr : r.getD "" = ""
      · simp [pyOr, hb, hv, hr]
      · simp [pyOr, hb, hv, hr]
    · simp [pyOr, hb, hv]
  · simp [pyOr, hb]

/-- Closed form of the spec's first-non-empty rule. -/
lemma specSessionId_closed (b v r : Option String) :
    specSessionId b v r =
      if b.getD "" = "" then
        (if v.getD "" = "" then
          (if r.getD "" = "" then "default_session" else r.getD "")
        else v.getD "")
      else b.getD "" := by
  unfold specSessionId
  by_cases hb : b.getD "" = ""
  · by_cases hv : v.getD "" = ""
    · by_cases hr : r.getD "" = ""
      · simp [List.find?, hb, hv, hr]
      · have hr2 : (r.getD "" == "") = false := beq_eq_false_iff_ne.mpr hr
        simp [List.find?, hb, hv, hr, hr2]
    · have hv2 : (v.getD "" == "") = false := beq_eq_false_iff_ne.mpr hv
      simp [List.find?, hb, hv, hv2]
  · have hb2 : (b.getD "" == "") = false := beq_eq_false_iff_ne.mpr hb
    simp [List.find?, hb, hb2]

/-- **C6.** The session id is the first non-empty value in the strict
precedence order body call-id, `x-vapi-call-id` header, `x-request-id`
header, fixed fallback constant; the extraction is a pure function of these
inputs (hence deterministic), and in particular a non-empty body call-id
wins over any header. -/
theorem session_id_precedence (b v r : Option String) :
    _extract_call_id b v r = specSessionId b v r := by
  rw [extract_call_id_closed, specSessionId_closed]

/-- **C9.** Every mutation runs inside the store-wide exclusive lock, so a
concurrent execution of per-session append programs is an arbitrary
interleaving `trace` of atomic appends.  Whenever the trace restricted to a
session equals that session's own `M`-append program, the session's history
afterwards is exactly its own `M` messages in its own order: no lost writes
and no cross-session corruption. -/
theorem concurrent_appends_isolated (sessions : List String) (M : Nat)
    (prog : String → List AddOp) (trace : List AddOp)
    (hproj : ∀ s ∈ sessions,
      trace.filter (fun o => o.call_id = s) = prog s)
    (hM : ∀ s ∈ sessions, (prog s).length = M) :
    ∀ s ∈ sessions,
      (ConversationStore.replay trace).get_history s =
          (prog s).map (fun o => ⟨o.role, o.content⟩) ∧
        ((ConversationStore.replay trace).get_history s).length = M := by
  intro s hs
  have h1 : (ConversationStore.replay trace).get_history s =
      (prog s).map (fun o => ⟨o.role, o.content⟩) := by
    rw [replay_get_history]
    unfold sessionMsgs
    rw [hproj s hs]
  refine ⟨h1, ?_⟩
  rw [h1, List.length_map]
  exact hM s hs

/-- Witness for C9: two sessions, two appends each, interleaved. -/
theorem concurrent_appends_isolated_witness :
    (ConversationStore.replay
          [⟨"a", "user", "a1"⟩, ⟨"b", "user", "b1"⟩,
           ⟨"b", "assistant", "b2"⟩, ⟨"a", "assistant", "a2"⟩]).get_history
        "a" = [⟨"user", "a1"⟩, ⟨"assistant", "a2"⟩] ∧
      ((ConversationStore.replay
          [⟨"a", "user", "a1"⟩, ⟨"b", "user", "b1"⟩,
           ⟨"b", "assistant", "b2"⟩, ⟨"a", "assistant", "a2"⟩]).get_history
        "a").length = 2 := by
  have h := concurrent_appends_isolated ["a", "b"] 2
    (fun s => if s = "a" then [⟨"a", "user", "a1"⟩, ⟨"a", "assistant", "a2"⟩]
      else [⟨"b", "user", "b1"⟩, ⟨"b", "assistant", "b2"⟩])
    [⟨"a", "user", "a1"⟩, ⟨"b", "user", "b1"⟩,
     ⟨"b", "assistant", "b2"⟩, ⟨"a", "assistant", "a2"⟩]
    (by decide) (by decide)
  simpa using h "a" (by simp)

/-- **C3.** The assembled outbound list is one system message followed by
exactly the persisted history in sequence order; the system content is the
first inbound `system`-role message's content when one exists (the default
persona otherwise) with the retrieved-context block appended; the inbound
non-system messages are never separately appended; and the output is never
empty, even for an empty history. -/
theorem prompt_assembly (store : ConversationStore)
    (call_id rag_context : String) (inc : List InMsg) :
    ((_build_messages store call_id rag_context inc).drop 1 =
        store.get_history call_id) ∧
      ¬ _build_messages store call_id rag_context inc = [] ∧
      (∀ m : InMsg, ∀ c : String,
        inc.find? (fun m => m.role == "system") = some m →
        m.content = some c →
        (_build_messages store call_id rag_context inc).head? =
          some ⟨"system", c ++ rag_context⟩) ∧
      (inc.find? (fun m => m.role == "system") = none →
        (_build_messages store call_id rag_context inc).head? =
          some ⟨"system", defaultPersona ++ rag_context⟩) := by
  unfold _build_messages
  refine ⟨by simp, by simp, ?_, ?_⟩
  · intro m c hfind hc
    rw [hfind]
    simp only [hc, Option.getD_some, List.head?_cons]
    by_cases hrag : rag_context = ""
    · simp [hrag]
    · simp [hrag]
  · intro hfind
    rw [hfind]
    by_cases hrag : rag_context = ""
    · simp [hrag]
    · simp [hrag]

/-- Witness for C3: a caller-supplied system message, a RAG block, and a
one-turn history. -/
theorem prompt_assembly_witness :
    (_build_messages ⟨[⟨1, "c1", "user", "hi"⟩], 2⟩ "c1" "CTX"
        [⟨"system", some "SYS"⟩, ⟨"user", some "hi"⟩]).drop 1 =
      ConversationStore.get_history ⟨[⟨1, "c1", "user", "hi"⟩], 2⟩ "c1" ∧
    (_build_messages ⟨[⟨1, "c1", "user", "hi"⟩], 2⟩ "c1" "CTX"
        [⟨"system", some "SYS"⟩, ⟨"user", some "hi"⟩]).head? =
      some ⟨"system", "SYS" ++ "CTX"⟩ := by
  have h := prompt_assembly ⟨[⟨1, "c1", "user", "hi"⟩], 2⟩ "c1" "CTX"
    [⟨"system", some "SYS"⟩, ⟨"user", some "hi"⟩]
  exact ⟨h.1, h.2.2.1 ⟨"system", some "SYS"⟩ "SYS" (by decide) rfl⟩

/-- The filtering loop of `search_context`, as a filter of the backend's
match list. -/
lemma chunks_eq_filter (th : ℚ) (results : List PineMatch) :
    results.filterMap (chunkOf th) =
      (results.filter
        (fun m => decide (th ≤ m.score) && !(matchText m == ""))).map
        matchText := by
  induction results with
  | nil => simp
  | cons m rest ih =>
    by_cases hs : th ≤ m.score
    · by_cases htxt : matchText m = ""
      · have : matchText m == "" := beq_iff_eq.mpr htxt
        simp [chunkOf, hs, htxt, this, ih]
      · have : (matchText m == "") = false := beq_eq_false_iff_ne.mpr htxt
        simp [chunkOf, hs, htxt, this, ih]
    · simp [chunkOf, hs, ih]

/-- **C7.** Under the backend's contract (at most `top_k` results, ordered
by descending score), `search_context` returns at most `top_k` passage
texts, still in descending-score order, keeping exactly the matches at or
above the threshold with non-empty extracted text — and an unconfigured
backend yields `[]`, not an error. -/
theorem search_context_contract (env : RagEnv) (top_k : Nat) (th : ℚ)
    (emb : List ℚ) (results : List PineMatch)
    (hconf : env.indexConfigured = true)
    (hemb : env.embedResult = .ok emb)
    (hq : env.queryResult top_k emb = .ok results)
    (hlen : results.length ≤ top_k)
    (hsort : results.Pairwise (fun a b => b.score ≤ a.score)) :
    (∃ kept : List PineMatch,
        search_context env top_k th = .ok (kept.map matchText) ∧
        kept.Sublist results ∧
        kept.Pairwise (fun a b => b.score ≤ a.score) ∧
        (∀ m ∈ kept, th ≤ m.score ∧ ¬ matchText m = "") ∧
        kept.length ≤ top_k) ∧
      ∀ env2 : RagEnv, env2.indexConfigured = false →
        search_context env2 top_k th = .ok [] := by
  constructor
  · refine ⟨results.filter
      (fun m => decide (th ≤ m.score) && !(matchText m == "")), ?_, ?_, ?_, ?_, ?_⟩
    · unfold search_context
      rw [hconf]
      simp only [Bool.true_eq_false, if_false, hemb, hq]
      rw [chunks_eq_filter]
    · exact List.filter_sublist results
    · exact hsort.sublist (List.filter_sublist results)
    · intro m hm
      have h2 := (List.mem_filter.mp hm).2
      simp only [Bool.and_eq_true, decide_eq_true_eq, Bool.not_eq_true] at h2
      exact ⟨h2.1, by simpa using h2.2⟩
    · exact le_trans (List.length_filter_le _ results) hlen
  · intro env2 hconf2
    unfold search_context
    rw [hconf2]
    simp

/-- Witness for C7: a configured backend returning two passing matches, one
of which has empty text, and one below-threshold match. -/
theorem search_context_contract_witness :
    (∃ kept : List PineMatch,
        search_context
            ⟨true, .ok [1],
              fun _ _ => .ok [⟨(9 : ℚ)/10, some "doc A"⟩,
                ⟨(7 : ℚ)/10, some ""⟩, ⟨(2 : ℚ)/10, some "doc C"⟩]⟩
            3 ((1 : ℚ)/2) = .ok (kept.map matchText) ∧
        kept.Sublist [⟨(9 : ℚ)/10, some "doc A"⟩,
          ⟨(7 : ℚ)/10, some ""⟩, ⟨(2 : ℚ)/10, some "doc C"⟩] ∧
        kept.Pairwise (fun a b => b.score ≤ a.score) ∧
        (∀ m ∈ kept, (1 : ℚ)/2 ≤ m.score ∧ ¬ matchText m = "") ∧
        kept.length ≤ 3) ∧
      ∀ env2 : RagEnv, env2.indexConfigured = false →
        search_context env2 3 ((1 : ℚ)/2) = .ok [] := by
  exact search_context_contract
    ⟨true, .ok [1],
      fun _ _ => .ok [⟨(9 : ℚ)/10, some "doc A"⟩,
        ⟨(7 : ℚ)/10, some ""⟩, ⟨(2 : ℚ)/10, some "doc C"⟩]⟩
    3 ((1 : ℚ)/2) [1]
    [⟨(9 : ℚ)/10, some "doc A"⟩, ⟨(7 : ℚ)/10, some ""⟩,
      ⟨(2 : ℚ)/10, some "doc C"⟩]
    rfl rfl rfl (by decide) (by norm_num [List.pairwise_cons])

/-- **C8 counterexample.** With a configured index and a raising embedding
call, `search_context` itself propagates the exception instead of returning
the empty list (the catch lives in `chat_completions`, not in the
adapter). -/
theorem search_context_propagates_cex :
    search_context ⟨true, .error "ConnectionError", fun _ _ => .ok []⟩ 3
        ((1 : ℚ)/2) = .error "ConnectionError" ∧
      ¬ search_context ⟨true, .error "ConnectionError", fun _ _ => .ok []⟩ 3
        ((1 : ℚ)/2) = .ok [] := by
  refine ⟨rfl, ?_⟩
  intro h
  rw [show search_context ⟨true, .error "ConnectionError",
      fun _ _ => .ok []⟩ 3 ((1 : ℚ)/2) = Except.error "ConnectionError"
    from rfl] at h
  exact Except.noConfusion h

/-- **C8 amended.** When the embedding or similarity-search call raises,
`search_context` propagates the exception, but `chat_completions` catches it
at its call site: the retrieved-context block is empty and the request
proceeds exactly as it would with no retrieval hit — the failure never
surfaces to the caller and never aborts the request. -/
theorem retrieval_failure_is_soft (store : ConversationStore)
    (req : InboundRequest) (env : RagEnv) (e : String)
    (herr : search_context env 3 ((1 : ℚ)/2) = .error e) :
    ragContextOf (_get_latest_user_message req.messages)
        (search_context env 3 ((1 : ℚ)/2)) = "" ∧
      chat_completions store req env =
        ((if ¬ _get_latest_user_message req.messages = "" then
            (store.add_message
              (_extract_call_id req.bodyCallId req.xVapiCallId req.xRequestId)
              "user" (_get_latest_user_message req.messages)).1
          else store),
         _build_messages
           (if ¬ _get_latest_user_message req.messages = "" then
              (store.add_message
                (_extract_call_id req.bodyCallId req.xVapiCallId
                  req.xRequestId)
                "user" (_get_latest_user_message req.messages)).1
            else store)
           (_extract_call_id req.bodyCallId req.xVapiCallId req.xRequestId)
           "" req.messages) := by
  have h1 : ragContextOf (_get_latest_user_message req.messages)
      (search_context env 3 ((1 : ℚ)/2)) = "" := by
    unfold ragContextOf
    rw [herr]
    by_cases hu : _get_latest_user_message req.messages = "" <;> simp [hu]
  refine ⟨h1, ?_⟩
  simp only [chat_completions]
  rw [h1]

/-- Witness for C8 amended: a raising backend on a one-user-message
request. -/
theorem retrieval_failure_is_soft_witness :
    ragContextOf
        (_get_latest_user_message [⟨"user", some "hi"⟩])
        (search_context ⟨true, .error "boom", fun _ _ => .ok []⟩ 3
          ((1 : ℚ)/2)) = "" ∧
      chat_completions ConversationStore.empty
          ⟨some "c7", none, none, [⟨"user", some "hi"⟩]⟩
          ⟨true, .error "boom", fun _ _ => .ok []⟩ =
        ((if ¬ _get_latest_user_message [⟨"user", some "hi"⟩] = "" then
            (ConversationStore.empty.add_message
              (_extract_call_id (some "c7") none none)
              "user" (_get_latest_user_message [⟨"user", some "hi"⟩])).1
          else ConversationStore.empty),
         _build_messages
           (if ¬ _get_latest_user_message [⟨"user", some "hi"⟩] = "" then
              (ConversationStore.empty.add_message
                (_extract_call_id (some "c7") none none)
                "user" (_get_latest_user_message [⟨"user", some "hi"⟩])).1
            else ConversationStore.empty)
           (_extract_call_id (some "c7") none none)
           "" [⟨"user", some "hi"⟩]) := by
  exact retrieval_failure_is_soft ConversationStore.empty
    ⟨some "c7", none, none, [⟨"user", some "hi"⟩]⟩
    ⟨true, .error "boom", fun _ _ => .ok []⟩ "boom" rfl

/-- **C10.** The only inbound content persisted as the user turn is the last
user-role message's content: when it is non-empty, exactly one `user` row
with that content is appended (earlier user messages from the same request
are never persisted); when there is no user message or its content is
empty, the store is untouched and retrieval is skipped (the outbound list is
that of an empty context block, independent of the retrieval environment);
in both cases the request still proceeds to the inference call with the
system message plus stored history. -/
theorem latest_user_turn_only (store : ConversationStore)
    (req : InboundRequest) (env : RagEnv) :
    (¬ _get_latest_user_message req.messages = "" →
        (chat_completions store req env).1.rows =
          store.rows ++
            [⟨store.nextId,
              _extract_call_id req.bodyCallId req.xVapiCallId req.xRequestId,
              "user", _get_latest_user_message req.messages⟩]) ∧
      (_get_latest_user_message req.messages = "" →
        (chat_completions store req env).1 = store ∧
          (chat_completions store req env).2 =
            _build_messages store
              (_extract_call_id req.bodyCallId req.xVapiCallId req.xRequestId)
              "" req.messages) ∧
      ¬ (chat_completions store req env).2 = [] := by
  refine ⟨?_, ?_, ?_⟩
  · intro hu
    simp only [chat_completions]
    rw [if_pos hu]
    rfl
  · intro hu
    have hrag : ragContextOf (_get_latest_user_message req.messages)
        (search_context env 3 ((1 : ℚ)/2)) = "" := by
      unfold ragContextOf
      rw [hu]
      simp
    constructor
    · simp only [chat_completions]
      rw [if_neg (by simpa using hu)]
    · simp only [chat_completions]
      rw [if_neg (by simpa using hu), hrag]
  · simp only [chat_completions, _build_messages]
    simp

/-- Witness for C10: a request carrying two user messages persists only the
content of the last one. -/
theorem latest_user_turn_only_witness :
    (chat_completions ConversationStore.empty
        ⟨some "call9", none, none,
          [⟨"user", some "first"⟩, ⟨"assistant", some "reply"⟩,
            ⟨"user", some "second"⟩]⟩
        ⟨false, .ok [], fun _ _ => .ok []⟩).1.rows =
      ConversationStore.empty.rows ++
        [⟨ConversationStore.empty.nextId,
          _extract_call_id (some "call9") none none, "user",
          _get_latest_user_message
            [⟨"user", some "first"⟩, ⟨"assistant", some "reply"⟩,
              ⟨"user", some "second"⟩]⟩] := by
  have h := latest_user_turn_only ConversationStore.empty
    ⟨some "call9", none, none,
      [⟨"user", some "first"⟩, ⟨"assistant", some "reply"⟩,
        ⟨"user", some "second"⟩]⟩
    ⟨false, .ok [], fun _ _ => .ok []⟩
  exact h.1 (by decide)

/-- **C1.** For every successfully opened upstream stream and every exit
path — normal end-of-stream (`exitAt = none`), or interruption after `k`
lines by a mid-stream upstream failure or a client disconnect
(`exitAt = some k`) — the `finally`-guarded finalize step runs exactly once
and persists exactly one `assistant`-role message for the session, whose
content is the concatenation, in arrival order, of the content tokens of
the well-formed content-bearing chunks the generator consumed; when that
accumulation is empty nothing is persisted. -/
theorem finalize_exactly_once (call_id : String) (lines : List SSELine)
    (exitAt : Option Nat)
    (hclean : ∀ l ∈ consumedLines lines exitAt, cleanLine l = true) :
    (generateRun call_id lines exitAt).2 =
        .ok (if ¬ String.join ((consumedLines lines exitAt).filterMap
              contentToken) = "" then
            [⟨call_id, "assistant",
              String.join ((consumedLines lines exitAt).filterMap
                contentToken)⟩]
          else [])
      ∧ ∀ ops : List AddOp, (generateRun call_id lines exitAt).2 = .ok ops →
          ops.length ≤ 1 ∧ ∀ op ∈ ops, op.call_id = call_id ∧
            op.role = "assistant" := by
  have hacc := relayLoop_clean (consumedLines lines exitAt) hclean
  have h3 : (generateRun call_id lines exitAt).2 =
      finalizeAcc call_id
        (((consumedLines lines exitAt).filterMap contentToken).map
          Json.str) := by
    rw [show (generateRun call_id lines exitAt).2 =
      finalizeAcc call_id
        ((relayLoop (consumedLines lines exitAt)).2.1) from rfl, hacc.1]
  have h4 : finalizeAcc call_id
      (((consumedLines lines exitAt).filterMap contentToken).map Json.str) =
      .ok (if ¬ String.join ((consumedLines lines exitAt).filterMap
            contentToken) = "" then
          [⟨call_id, "assistant",
            String.join ((consumedLines lines exitAt).filterMap
              contentToken)⟩]
        else []) := by
    unfold finalizeAcc
    rw [joinTokens_map_str]
  have hmain := h3.trans h4
  refine ⟨hmain, ?_⟩
  intro ops hops
  rw [hmain] at hops
  have heq : (if ¬ String.join ((consumedLines lines exitAt).filterMap
        contentToken) = "" then
      [(⟨call_id, "assistant",
        String.join ((consumedLines lines exitAt).filterMap
          contentToken)⟩ : AddOp)]
    else []) = ops := by
    injection hops
  rw [← heq]
  by_cases hj : String.join ((consumedLines lines exitAt).filterMap
      contentToken) = ""
  · simp [hj]
  · simp [hj]

/-- Witness for C1: two content-bearing chunks then the upstream terminator,
fully consumed; finalize persists their concatenation once. -/
theorem finalize_exactly_once_witness :
    (generateRun "call1"
        [⟨"data: a", some (Json.obj [("choices", Json.arr [Json.obj
            [("delta", Json.obj [("content", Json.str "Hel")])]])])⟩,
          ⟨"data: b", some (Json.obj [("choices", Json.arr [Json.obj
            [("delta", Json.obj [("content", Json.str "lo")])]])])⟩,
          ⟨"data: [DONE]", none⟩] none).2 =
      .ok [⟨"call1", "assistant", "Hello"⟩] := by
  have h := finalize_exactly_once "call1"
    [⟨"data: a", some (Json.obj [("choices", Json.arr [Json.obj
        [("delta", Json.obj [("content", Json.str "Hel")])]])])⟩,
      ⟨"data: b", some (Json.obj [("choices", Json.arr [Json.obj
        [("delta", Json.obj [("content", Json.str "lo")])]])])⟩,
      ⟨"data: [DONE]", none⟩] none (by decide)
  rw [h.1]
  rfl

/-- **C4 counterexample.** When the upstream's own terminator line is
relayed verbatim, the caller sees two terminal marker frames — the relayed
upstream terminator plus the relay's re-emitted one — not exactly one. -/
theorem terminator_not_unique_cex :
    (generateRun "c" [⟨"data: [DONE]", none⟩] none).1 =
        ["data: [DONE]\n\n", "data: [DONE]\n\n"] ∧
      ¬ ((generateRun "c" [⟨"data: [DONE]", none⟩] none).1.filter
          (fun f => f == "data: [DONE]\n\n")).length = 1 := by
  refine ⟨rfl, ?_⟩
  have h2 : ((generateRun "c" [⟨"data: [DONE]", none⟩] none).1.filter
      (fun f => f == "data: [DONE]\n\n")).length = 2 := rfl
  rw [h2]
  omega

/-- One SSE frame equals the terminal marker frame iff its line text is the
terminator sentinel. -/
lemma frame_eq_done_iff (l : SSELine) :
    (((l.text ++ "\n\n") == "data: [DONE]\n\n") && !(l.text == "")) =
      (l.text == "data: [DONE]") := by
  by_cases hd : l.text = "data: [DONE]"
  · rw [hd]
    rfl
  · have h1 : (l.text == "data: [DONE]") = false := beq_eq_false_iff_ne.mpr hd
    have h2 : ((l.text ++ "\n\n") == "data: [DONE]\n\n") = false := by
      apply beq_eq_false_iff_ne.mpr
      intro hEq
      apply hd
      have hEq2 : l.text ++ "\n\n" = "data: [DONE]" ++ "\n\n" := by
        rw [hEq]
        rfl
      have hdata := congrArg String.data hEq2
      rw [String.data_append, String.data_append] at hdata
      exact String.ext (List.append_cancel_right hdata)
    rw [h1, h2]
    simp

/-- **C4 amended.** On a cleanly completed upstream stream the relay appends
exactly one terminator frame of its own, so the caller sees `1 +` the number
of upstream terminator lines relayed verbatim — exactly one in total
precisely when the upstream emitted no terminator line itself. -/
theorem terminator_count (call_id : String) (lines : List SSELine)
    (hok : (relayLoop lines).2.2 = true) :
    ((generateRun call_id lines none).1.filter
        (fun f => f == "data: [DONE]\n\n")).length =
      1 + (lines.filter (fun l => l.text == "data: [DONE]")).length := by
  have hframes := relayLoop_frames lines hok
  have hgen : (generateRun call_id lines none).1 =
      (relayLoop lines).1 ++ ["data: [DONE]\n\n"] := by
    simp only [generateRun, consumedLines]
    rw [hok]
    simp
  rw [hgen, List.filter_append, hframes, List.filter_map,
    List.length_append, List.length_map]
  have hcomp : ((fun f => f == "data: [DONE]\n\n") ∘
      (fun l : SSELine => l.text ++ "\n\n")) =
      fun l : SSELine => (l.text ++ "\n\n") == "data: [DONE]\n\n" := rfl
  rw [hcomp, List.filter_filter]
  have hfeq : lines.filter
      (fun l : SSELine =>
        ((l.text ++ "\n\n") == "data: [DONE]\n\n") && !(l.text == "")) =
      lines.filter (fun l => l.text == "data: [DONE]") :=
    List.filter_congr (fun l _ => frame_eq_done_iff l)
  rw [hfeq]
  simp [Nat.add_comm]

/-- Witness for C4 amended: one non-terminator chunk, cleanly completed
stream — the caller sees exactly one terminal marker. -/
theorem terminator_count_witness :
    ((generateRun "c2" [⟨"data: a", none⟩] none).1.filter
        (fun f => f == "data: [DONE]\n\n")).length =
      1 + (([⟨"data: a", none⟩] : List SSELine).filter
        (fun l => l.text == "data: [DONE]")).length := by
  exact terminator_count "c2" [⟨"data: a", none⟩] rfl

end VapiProxy
